import Mathlib

/-!
# kryazhev/oauth2: a shallow embedding of `oauth2.go`

The file embeds the one source file of the repository:

* the data model (`User`, `Config`, the process-wide `AuthConfigs` registry);
* the startup loader (`init`, `lookupEnv`, `NewConfig`);
* the user resolver (`Config.GetUser`);
* the three profile extractors (`newGoogleUser`, `newFacebookUser`, `newGithubUser`).

Conventions of the embedding.

* The process environment is a function `Env := String → Option String`
  (`os.LookupEnv`); `os.Getenv` is the same lookup with `""` for an unset key.
* Code that lives outside the repository is a parameter: the five
  `Endpoint` constants of `golang.org/x/oauth2/...` are the fields of
  `Endpoints`; the token exchange, the authenticated GET and the JSON decoder
  are the fields of `World`.
* A Go `error` value is its message (`String`).
* A run-time panic of a failed single-value type assertion `x.(T)` is `none`
  in the extractors and `Outcome.panic` in `GetUser`.
* `panic(err)` inside `init` aborts the process: the loader is an
  `Except String Registry`, the error case carrying no registry.
* `GetUser` returns, next to its outcome, the list of outbound calls it made.
-/

namespace OAuth2

/-! ## Data model -/

/-- Go `type User struct { Name, Email, Picture string }`. -/
structure User where
  Name : String
  Email : String
  Picture : String
deriving DecidableEq, Repr

/-- Library type `oauth2.Endpoint` (the URL pair of a provider). -/
structure Endpoint where
  AuthURL : String
  TokenURL : String
deriving DecidableEq, Repr

/-- Library type `oauth2.Config`, with the fields `NewConfig` fills. -/
structure OAuthConfig where
  ClientID : String
  ClientSecret : String
  Endpoint : Endpoint
  RedirectURL : String
  Scopes : List String
deriving DecidableEq, Repr

/-- Go `type Config struct { DataURL string; oauth2.Config }`: the embedded
struct is the parent structure, so its fields are promoted as in Go. -/
structure Config extends OAuthConfig where
  DataURL : String
deriving DecidableEq, Repr

/-- The five `Endpoint` constants imported from `golang.org/x/oauth2/...`:
`google.Endpoint`, `facebook.Endpoint`, `odnoklassniki.Endpoint`,
`vk.Endpoint`, `github.Endpoint`. -/
structure Endpoints where
  google : Endpoint
  facebook : Endpoint
  odnoklassniki : Endpoint
  vk : Endpoint
  github : Endpoint

/-- The process environment, as seen through `os.LookupEnv`. -/
abbrev Env := String → Option String

/-- Go `map[string]*Config` (the global `AuthConfigs`): an association list
with at most one pair per key. -/
abbrev Registry := List (String × Config)

/-- Map assignment `m[k] = v`: the pair for `k` is replaced. -/
def Registry.set (r : Registry) (k : String) (v : Config) : Registry :=
  (k, v) :: r.filter (fun p => decide (p.1 ≠ k))

/-- Map read `m[k]`. -/
def Registry.get (r : Registry) (k : String) : Option Config :=
  r.lookup k

/-! ## Library functions used by the loader -/

/-- Splitting a character list at every occurrence of `sep`; the result has
one more segment than there are separators. -/
def splitChars (sep : Char) : List Char → List (List Char)
  | [] => [[]]
  | c :: cs =>
    if c = sep then [] :: splitChars sep cs
    else
      match splitChars sep cs with
      | [] => [[c]]
      | seg :: rest => (c :: seg) :: rest

/-- Go `strings.Split(s, sep)` for a one-character separator. -/
def Split (s : String) (sep : Char) : List String :=
  (splitChars sep s.data).map String.mk

/-- Go `os.Getenv`: the value of the key, `""` when it is unset. -/
def Getenv (env : Env) (key : String) : String :=
  match env key with
  | some value => value
  | none => ""

/-- Source `lookupEnv(key, fallback)`. -/
def lookupEnv (env : Env) (key fallback : String) : String :=
  match env key with
  | some value => value
  | none => fallback

/-! ## The loader -/

/-- The `switch endpointName` of `NewConfig`: the static endpoint table, with
`none` for the `default` branch. -/
def staticEndpoint (lib : Endpoints) (endpointName : String) : Option Endpoint :=
  if endpointName = "google" then some lib.google
  else if endpointName = "facebook" then some lib.facebook
  else if endpointName = "odnoklassniki" then some lib.odnoklassniki
  else if endpointName = "vk" then some lib.vk
  else if endpointName = "github" then some lib.github
  else none

/-- Source `NewConfig(endpointName)`. -/
def NewConfig (lib : Endpoints) (env : Env) (endpointName : String) : Except String Config :=
  match staticEndpoint lib endpointName with
  | none => Except.error ("Init unknown OAuth2.0 Endpoint : " ++ endpointName)
  | some endpoint =>
    let scopes := lookupEnv env ("oauth2." ++ endpointName ++ ".scopes") "openid email"
    Except.ok {
      DataURL := Getenv env ("oauth2." ++ endpointName ++ ".data-url")
      RedirectURL := Getenv env "oauth2.redirect-uri"
      ClientID := Getenv env ("oauth2." ++ endpointName ++ ".client-id")
      ClientSecret := Getenv env ("oauth2." ++ endpointName ++ ".secret")
      Endpoint := endpoint
      Scopes := Split scopes ',' }

/-- The `for _, endpointName := range split` loop of `init`, threading the
global `AuthConfigs`; `panic(err)` ends the run with the error. -/
def registerAll (lib : Endpoints) (env : Env) : List String → Registry → Except String Registry
  | [], authConfigs => Except.ok authConfigs
  | endpointName :: rest, authConfigs =>
    match NewConfig lib env endpointName with
    | Except.error err => Except.error err
    | Except.ok config => registerAll lib env rest (authConfigs.set endpointName config)

/-- The registry build over a list of enabled names, from the empty map. -/
def Build (lib : Endpoints) (env : Env) (enabledNames : List String) : Except String Registry :=
  registerAll lib env enabledNames []

/-- Source `init()`: the registry it leaves in `AuthConfigs`, or the panic. -/
def init (lib : Endpoints) (env : Env) : Except String Registry :=
  let endpointNames := lookupEnv env "oauth2.endpoint-names" ""
  if endpointNames.utf8ByteSize > 0 then
    Build lib env (Split endpointNames ',')
  else
    Except.ok []

/-- The closed set of names the loader accepts. -/
def knownNames : List String :=
  ["google", "facebook", "github", "vk", "odnoklassniki"]

/-- A segment that begins or ends with a white-space character. -/
def hasSurroundingSpace (s : String) : Bool :=
  (match s.data.head? with
    | some c => c.isWhitespace
    | none => false) ||
  (match s.data.getLast? with
    | some c => c.isWhitespace
    | none => false)

/-! ## JSON values and the extractors -/

/-- What `encoding/json` stores in an `interface{}`: `nil`, `bool`,
`float64` (kept as a decimal `m * 10 ^ e`), `string`, `[]interface{}`,
`map[string]interface{}`. -/
inductive JVal where
  | null : JVal
  | bool (b : Bool) : JVal
  | num (m e : Int) : JVal
  | str (s : String) : JVal
  | arr (items : List JVal) : JVal
  | obj (fields : List (String × JVal)) : JVal

/-- Go `map[string]interface{}`. -/
abbrev JObj := List (String × JVal)

/-- Map read `source[key]`: an absent key reads as the nil interface. -/
def JObj.index (source : JObj) (key : String) : JVal :=
  match source.lookup key with
  | some v => v
  | none => JVal.null

/-- Type assertion `v.(string)`; `none` is the run-time panic. -/
def assertString : JVal → Option String
  | JVal.str s => some s
  | _ => none

/-- Type assertion `v.(map[string]interface{})`; `none` is the run-time panic. -/
def assertMap : JVal → Option JObj
  | JVal.obj fields => some fields
  | _ => none

/-- Source `newGoogleUser(source)`. -/
def newGoogleUser (source : JObj) : Option User :=
  match assertString (source.index "name") with
  | none => none
  | some name =>
    match assertString (source.index "email") with
    | none => none
    | some email =>
      match assertString (source.index "picture") with
      | none => none
      | some picture => some { Name := name, Email := email, Picture := picture }

/-- Source `newFacebookUser(source)`. -/
def newFacebookUser (source : JObj) : Option User :=
  match assertMap (source.index "picture") with
  | none => none
  | some picture =>
    match assertMap (picture.index "data") with
    | none => none
    | some data =>
      match assertString (source.index "name") with
      | none => none
      | some name =>
        match assertString (source.index "email") with
        | none => none
        | some email =>
          match assertString (data.index "url") with
          | none => none
          | some url => some { Name := name, Email := email, Picture := url }

/-- Source `newGithubUser(source)`; `Email` keeps its zero value. -/
def newGithubUser (source : JObj) : Option User :=
  match assertString (source.index "login") with
  | none => none
  | some login =>
    match assertString (source.index "avatar_url") with
    | none => none
    | some avatar => some { Name := login, Email := "", Picture := avatar }

/-! ## The user resolver -/

/-- Library type `oauth2.Token`, with the field `GetUser` reads. -/
structure Token where
  AccessToken : String
deriving DecidableEq, Repr

/-- The outside world of one `GetUser` call: `cfg.Exchange(ctx, code)`,
`cfg.Client(ctx, token).Get(url)` (the response body), and
`json.NewDecoder(body).Decode(&data)`. -/
structure World where
  Exchange : OAuthConfig → String → Except String Token
  Get : OAuthConfig → Token → String → Except String String
  Decode : String → Except String JObj

/-- An outbound call made by `GetUser`. -/
inductive Call where
  | exchange (code : String) : Call
  | get (url : String) : Call
deriving DecidableEq, Repr

/-- What a `GetUser` call does: return a user, return an error, or panic. -/
inductive Outcome where
  | user (u : User) : Outcome
  | error (err : String) : Outcome
  | panic : Outcome
deriving DecidableEq, Repr

/-- The outcome of a call of an extractor. -/
def Outcome.ofExtractor : Option User → Outcome
  | some u => Outcome.user u
  | none => Outcome.panic

/-- The `switch endpointName` at the end of `GetUser`. -/
def normalize (endpointName : String) (data : JObj) : Outcome :=
  if endpointName = "google" then Outcome.ofExtractor (newGoogleUser data)
  else if endpointName = "facebook" then Outcome.ofExtractor (newFacebookUser data)
  else if endpointName = "github" then Outcome.ofExtractor (newGithubUser data)
  else Outcome.error ("UserInfo unknown OAuth2.0 Endpoint : " ++ endpointName)

/-- Source `(cfg *Config) GetUser(endpointName, code)`, with the calls made. -/
def GetUser (w : World) (cfg : Config) (endpointName code : String) : Outcome × List Call :=
  match w.Exchange cfg.toOAuthConfig code with
  | Except.error err => (Outcome.error err, [Call.exchange code])
  | Except.ok token =>
    let url := cfg.DataURL ++ token.AccessToken
    match w.Get cfg.toOAuthConfig token url with
    | Except.error err => (Outcome.error err, [Call.exchange code, Call.get url])
    | Except.ok body =>
      match w.Decode body with
      | Except.error err => (Outcome.error err, [Call.exchange code, Call.get url])
      | Except.ok data => (normalize endpointName data, [Call.exchange code, Call.get url])

/-- The profile requests among the calls of a run. -/
def profileRequests (calls : List Call) : List String :=
  calls.filterMap (fun c => match c with
    | Call.get url => some url
    | Call.exchange _ => none)

/-! ## Stub inputs used to instantiate the theorems -/

/-- A sample endpoint table. -/
def sampleEndpoints : Endpoints :=
  { google := { AuthURL := "https://g/auth", TokenURL := "https://g/token" }
    facebook := { AuthURL := "https://f/auth", TokenURL := "https://f/token" }
    odnoklassniki := { AuthURL := "https://o/auth", TokenURL := "https://o/token" }
    vk := { AuthURL := "https://v/auth", TokenURL := "https://v/token" }
    github := { AuthURL := "https://h/auth", TokenURL := "https://h/token" } }

/-- The environment in which nothing is set. -/
def emptyEnv : Env := fun _ => none

/-- The environment in which only `oauth2.google.client-id=abc` is set. -/
def clientIdEnv : Env := fun key =>
  if key = "oauth2.google.client-id" then some "abc" else none

/-- An environment in which exactly `key` is set, to `value`. -/
def singleEnv (key value : String) : Env := fun k =>
  if k = key then some value else none

/-- A provider config for the stub world. -/
def stubConfig : Config :=
  { DataURL := "https://d/me?access_token="
    ClientID := "id"
    ClientSecret := "secret"
    Endpoint := sampleEndpoints.google
    RedirectURL := "https://r/callback"
    Scopes := ["openid email"] }

/-- A stub world: the token endpoint answers the code `code1` with the access
token `T`, the profile endpoint answers at `DataURL ++ "T"`, and the body
decodes to `profile`. -/
def stubWorld (profile : JObj) : World :=
  { Exchange := fun _ code =>
      if code = "code1" then Except.ok { AccessToken := "T" }
      else Except.error "oauth2: cannot fetch token: 400 Bad Request"
    Get := fun _ _ url =>
      if url = "https://d/me?access_token=T" then Except.ok "body"
      else Except.error "Get: connection refused"
    Decode := fun body =>
      if body = "body" then Except.ok profile
      else Except.error "invalid character" }

/-- A stub world whose token endpoint refuses every code. -/
def refusingWorld : World :=
  { Exchange := fun _ _ => Except.error "oauth2: cannot fetch token: 400 Bad Request"
    Get := fun _ _ _ => Except.ok "body"
    Decode := fun _ => Except.ok [] }

/-- The Google-shaped profile of the spec. -/
def googleProfile : JObj :=
  [("name", JVal.str "Ann"), ("email", JVal.str "ann@x.com"),
   ("picture", JVal.str "http://p/a.png")]

/-- The Facebook-shaped profile of the spec. -/
def facebookProfile : JObj :=
  [("name", JVal.str "Bo"), ("email", JVal.str "bo@x.com"),
   ("picture", JVal.obj [("data", JVal.obj [("url", JVal.str "http://p/b.png")])])]

/-- The GitHub-shaped profile of the spec, with an `email` field added. -/
def githubProfile : JObj :=
  [("login", JVal.str "carl"), ("avatar_url", JVal.str "http://p/c.png"),
   ("email", JVal.str "carl@x.com")]

/-! ## Lemmas on the loader -/

theorem staticEndpoint_eq_none_iff (lib : Endpoints) (n : String) :
    staticEndpoint lib n = none ↔ n ∉ knownNames := by
  unfold staticEndpoint knownNames
  by_cases h1 : n = "google"
  · simp [h1]
  by_cases h2 : n = "facebook"
  · simp [h2]
  by_cases h3 : n = "odnoklassniki"
  · simp [h3]
  by_cases h4 : n = "vk"
  · simp [h4]
  by_cases h5 : n = "github"
  · simp [h5]
  simp [h1, h2, h3, h4, h5]

theorem NewConfig_unknown (lib : Endpoints) (env : Env) (n : String) (h : n ∉ knownNames) :
    NewConfig lib env n = Except.error ("Init unknown OAuth2.0 Endpoint : " ++ n) := by
  have h0 := (staticEndpoint_eq_none_iff lib n).mpr h
  simp [NewConfig, h0]

theorem NewConfig_known (lib : Endpoints) (env : Env) (n : String) (h : n ∈ knownNames) :
    ∃ endpoint, staticEndpoint lib n = some endpoint ∧
      NewConfig lib env n = Except.ok
        { DataURL := Getenv env ("oauth2." ++ n ++ ".data-url")
          RedirectURL := Getenv env "oauth2.redirect-uri"
          ClientID := Getenv env ("oauth2." ++ n ++ ".client-id")
          ClientSecret := Getenv env ("oauth2." ++ n ++ ".secret")
          Endpoint := endpoint
          Scopes := Split (lookupEnv env ("oauth2." ++ n ++ ".scopes") "openid email") ',' } := by
  cases h0 : staticEndpoint lib n with
  | none => exact absurd h ((staticEndpoint_eq_none_iff lib n).mp h0)
  | some endpoint => exact ⟨endpoint, rfl, by simp [NewConfig, h0]⟩

theorem registerAll_ok (lib : Endpoints) (env : Env) (names : List String)
    (h : ∀ n ∈ names, n ∈ knownNames) (acc : Registry) :
    ∃ r, registerAll lib env names acc = Except.ok r := by
  induction names generalizing acc with
  | nil => exact ⟨acc, rfl⟩
  | cons n ns ih =>
    obtain ⟨e, _, hc⟩ := NewConfig_known lib env n (h n (List.mem_cons_self n ns))
    simp only [registerAll, hc]
    exact ih (fun m hm => h m (List.mem_cons_of_mem n hm)) _

theorem registerAll_error (lib : Endpoints) (env : Env) (pre : List String) (bad : String)
    (post : List String) (hpre : ∀ n ∈ pre, n ∈ knownNames) (hbad : bad ∉ knownNames)
    (acc : Registry) :
    registerAll lib env (pre ++ bad :: post) acc
      = Except.error ("Init unknown OAuth2.0 Endpoint : " ++ bad) := by
  induction pre generalizing acc with
  | nil => simp [registerAll, NewConfig_unknown lib env bad hbad]
  | cons n ns ih =>
    obtain ⟨e, _, hc⟩ := NewConfig_known lib env n (hpre n (List.mem_cons_self n ns))
    simp only [List.cons_append, registerAll, hc]
    exact ih (fun m hm => hpre m (List.mem_cons_of_mem n hm)) _

theorem exists_first_unknown (names : List String) (h : ∃ n ∈ names, n ∉ knownNames) :
    ∃ pre bad post, names = pre ++ bad :: post ∧ (∀ n ∈ pre, n ∈ knownNames) ∧
      bad ∉ knownNames := by
  induction names with
  | nil => obtain ⟨n, hn, _⟩ := h; cases hn
  | cons a as ih =>
    by_cases ha : a ∈ knownNames
    · have h2 : ∃ n ∈ as, n ∉ knownNames := by
        obtain ⟨n, hn, hk⟩ := h
        rcases List.mem_cons.mp hn with rfl | hn2
        · exact absurd ha hk
        · exact ⟨n, hn2, hk⟩
      obtain ⟨pre, bad, post, he, hp, hb⟩ := ih h2
      refine ⟨a :: pre, bad, post, by simp [he], ?_, hb⟩
      intro n hn
      rcases List.mem_cons.mp hn with rfl | hn2
      · exact ha
      · exact hp n hn2
    · exact ⟨[], a, as, rfl, by simp, ha⟩

theorem Build_unknown (lib : Endpoints) (env : Env) (names : List String)
    (h : ∃ n ∈ names, n ∉ knownNames) :
    ∃ bad ∈ names, bad ∉ knownNames ∧
      Build lib env names = Except.error ("Init unknown OAuth2.0 Endpoint : " ++ bad) := by
  obtain ⟨pre, bad, post, he, hp, hb⟩ := exists_first_unknown names h
  refine ⟨bad, by simp [he], hb, ?_⟩
  rw [Build, he]
  exact registerAll_error lib env pre bad post hp hb []

theorem utf8ByteSize_pos_of_ne_empty (v : String) (h : v ≠ "") : v.utf8ByteSize > 0 := by
  rcases v with ⟨cs⟩
  cases cs with
  | nil => exact absurd rfl h
  | cons c cs =>
    simp [String.utf8ByteSize, String.utf8ByteSize.go]
    have := Char.utf8Size_pos c
    omega

theorem Getenv_eq_getD (env : Env) (key : String) : Getenv env key = (env key).getD "" := by
  unfold Getenv
  cases env key <;> rfl

theorem Split_known (n : String) (h : n ∈ knownNames) :
    Split n ',' = [n] ∧ n.utf8ByteSize > 0 := by
  simp only [knownNames, List.mem_cons, List.mem_singleton, List.not_mem_nil, or_false] at h
  rcases h with rfl | rfl | rfl | rfl | rfl <;> exact ⟨by decide, by decide⟩

/-! ## The claims on the loader -/

/-- C1 (defect in the code). With only `oauth2.google.client-id=abc` set,
`NewConfig("google")` succeeds with `ClientID = "abc"` and an empty
`ClientSecret`, but its `Scopes` is the one-element sequence
`["openid email"]`: the default is written with a blank and split on a comma,
so it is not the two-element `["openid", "email"]`. -/
theorem NewConfig_default_scopes_unsplit :
    ∀ lib : Endpoints, ∃ cfg : Config,
      NewConfig lib clientIdEnv "google" = Except.ok cfg ∧
      cfg.ClientID = "abc" ∧ cfg.ClientSecret = "" ∧
      cfg.Scopes = ["openid email"] ∧ cfg.Scopes.length = 1 ∧
      cfg.Scopes ≠ ["openid", "email"] := by
  intro lib
  refine ⟨_, rfl, ?_, ?_, ?_, ?_, ?_⟩ <;> dsimp only <;> decide

/-- C3. The registry build over a list of names succeeds exactly when every
name of the list is one of the five recognised names; a list with another
name in it fails with the configuration error of its first such name, also
when recognised names precede it, and then the result holds no registry. -/
theorem Build_succeeds_iff_all_known (lib : Endpoints) (env : Env) (names : List String) :
    ((∃ r, Build lib env names = Except.ok r) ↔ ∀ n ∈ names, n ∈ knownNames) ∧
    ((∃ n ∈ names, n ∉ knownNames) →
      (∃ pre bad post, names = pre ++ bad :: post ∧ (∀ n ∈ pre, n ∈ knownNames) ∧
        bad ∉ knownNames ∧
        Build lib env names = Except.error ("Init unknown OAuth2.0 Endpoint : " ++ bad)) ∧
      ∀ r, Build lib env names ≠ Except.ok r) := by
  have hfail : (∃ n ∈ names, n ∉ knownNames) →
      ∃ pre bad post, names = pre ++ bad :: post ∧ (∀ n ∈ pre, n ∈ knownNames) ∧
        bad ∉ knownNames ∧
        Build lib env names = Except.error ("Init unknown OAuth2.0 Endpoint : " ++ bad) := by
    intro h
    obtain ⟨pre, bad, post, he, hp, hb⟩ := exists_first_unknown names h
    refine ⟨pre, bad, post, he, hp, hb, ?_⟩
    rw [Build, he]
    exact registerAll_error lib env pre bad post hp hb []
  refine ⟨⟨?_, ?_⟩, ?_⟩
  · rintro ⟨r, hr⟩
    by_contra hall
    push_neg at hall
    obtain ⟨_, _, _, _, _, _, hE⟩ := hfail hall
    rw [hr] at hE
    cases hE
  · intro hall
    exact registerAll_ok lib env names hall []
  · intro h
    refine ⟨hfail h, ?_⟩
    intro r hr
    obtain ⟨_, _, _, _, _, _, hE⟩ := hfail h
    rw [hr] at hE
    cases hE

/-- C3 at a concrete input: `google` is registered first, then
`unknown-provider` makes the whole build fail. -/
theorem Build_succeeds_iff_all_known_witness :
    (∃ n ∈ ["google", "unknown-provider"], n ∉ knownNames) ∧
    Build sampleEndpoints emptyEnv ["google", "unknown-provider"]
      = Except.error "Init unknown OAuth2.0 Endpoint : unknown-provider" ∧
    ∀ r, Build sampleEndpoints emptyEnv ["google", "unknown-provider"] ≠ Except.ok r :=
  have h : ∃ n ∈ ["google", "unknown-provider"], n ∉ knownNames :=
    ⟨"unknown-provider", by decide, by decide⟩
  ⟨h, rfl,
    ((Build_succeeds_iff_all_known sampleEndpoints emptyEnv
      ["google", "unknown-provider"]).2 h).2⟩

/-- C4. For each of the five recognised names and every environment,
`NewConfig` succeeds; the `Endpoint` of the config is the entry of the static
table for the name, `ClientID`, `ClientSecret`, `DataURL` and `RedirectURL`
are the values of `oauth2.<name>.client-id`, `oauth2.<name>.secret`,
`oauth2.<name>.data-url` and `oauth2.redirect-uri` (the empty string when
unset), and a build with just that name gives the registry whose single entry
is that config under that name. -/
theorem NewConfig_known_fields (lib : Endpoints) (env : Env) (name : String)
    (h : name ∈ knownNames) :
    ∃ cfg : Config, NewConfig lib env name = Except.ok cfg ∧
      (name = "google" → cfg.Endpoint = lib.google) ∧
      (name = "facebook" → cfg.Endpoint = lib.facebook) ∧
      (name = "github" → cfg.Endpoint = lib.github) ∧
      (name = "vk" → cfg.Endpoint = lib.vk) ∧
      (name = "odnoklassniki" → cfg.Endpoint = lib.odnoklassniki) ∧
      cfg.ClientID = (env ("oauth2." ++ name ++ ".client-id")).getD "" ∧
      cfg.ClientSecret = (env ("oauth2." ++ name ++ ".secret")).getD "" ∧
      cfg.DataURL = (env ("oauth2." ++ name ++ ".data-url")).getD "" ∧
      cfg.RedirectURL = (env "oauth2.redirect-uri").getD "" ∧
      Build lib env [name] = Except.ok [(name, cfg)] ∧
      (∀ r, Build lib env [name] = Except.ok r → r.length = 1 ∧ r.get name = some cfg) ∧
      (env "oauth2.endpoint-names" = some name → init lib env = Except.ok [(name, cfg)]) := by
  obtain ⟨endpoint, he, hc⟩ := NewConfig_known lib env name h
  have hb : Build lib env [name] = Except.ok [(name,
      { DataURL := Getenv env ("oauth2." ++ name ++ ".data-url")
        RedirectURL := Getenv env "oauth2.redirect-uri"
        ClientID := Getenv env ("oauth2." ++ name ++ ".client-id")
        ClientSecret := Getenv env ("oauth2." ++ name ++ ".secret")
        Endpoint := endpoint
        Scopes := Split (lookupEnv env ("oauth2." ++ name ++ ".scopes") "openid email") ',' })] := by
    simp [Build, registerAll, hc, Registry.set]
  refine ⟨_, hc, ?_, ?_, ?_, ?_, ?_, Getenv_eq_getD _ _, Getenv_eq_getD _ _,
    Getenv_eq_getD _ _, Getenv_eq_getD _ _, hb, ?_, ?_⟩
  · rintro rfl
    simpa [staticEndpoint] using he.symm
  · rintro rfl
    simpa [staticEndpoint] using he.symm
  · rintro rfl
    simpa [staticEndpoint] using he.symm
  · rintro rfl
    simpa [staticEndpoint] using he.symm
  · rintro rfl
    simpa [staticEndpoint] using he.symm
  · intro r hr
    rw [hb] at hr
    cases hr
    simp [Registry.get, List.lookup]
  · intro hv
    obtain ⟨hs, hpos⟩ := Split_known name h
    simp only [init, lookupEnv, hv, hs]
    rw [if_pos hpos]
    exact hb

/-- C4 at a concrete input: `vk` in the environment with only the google
client id set. -/
theorem NewConfig_known_fields_witness :
    "vk" ∈ knownNames ∧
    ∃ cfg : Config, NewConfig sampleEndpoints clientIdEnv "vk" = Except.ok cfg ∧
      cfg.Endpoint = sampleEndpoints.vk ∧ cfg.ClientID = "" ∧
      Build sampleEndpoints clientIdEnv ["vk"] = Except.ok [("vk", cfg)] :=
  have h : "vk" ∈ knownNames := by decide
  ⟨h, by
    obtain ⟨cfg, hc, _, _, _, hvk, _, hid, _, _, _, hb, _⟩ :=
      NewConfig_known_fields sampleEndpoints clientIdEnv "vk" h
    exact ⟨cfg, hc, hvk rfl, by rw [hid]; rfl, hb⟩⟩

/-- C10. The loader splits the value of `oauth2.endpoint-names` on `,` and
matches each segment as it is. For the unset or empty value it builds the
empty registry. For a non-empty value it is the build over the segments, and
when a segment is empty or begins or ends with white space the build fails
with the unknown-endpoint error of a segment that is not a recognised name. -/
theorem init_matches_segments_exactly (lib : Endpoints) (env : Env) :
    ((env "oauth2.endpoint-names" = none ∨ env "oauth2.endpoint-names" = some "") →
      init lib env = Except.ok []) ∧
    (∀ v, env "oauth2.endpoint-names" = some v → v ≠ "" →
      init lib env = Build lib env (Split v ',') ∧
      ((∃ seg ∈ Split v ',', seg = "" ∨ hasSurroundingSpace seg = true) →
        (∃ bad ∈ Split v ',', bad ∉ knownNames ∧
          init lib env = Except.error ("Init unknown OAuth2.0 Endpoint : " ++ bad)) ∧
        ∀ r, init lib env ≠ Except.ok r)) := by
  constructor
  · have h0 : ¬ ("".utf8ByteSize > 0) := by decide
    rintro (h | h) <;> simp only [init, lookupEnv, h] <;> rw [if_neg h0]
  · intro v hv hne
    have hi : init lib env = Build lib env (Split v ',') := by
      simp only [init, lookupEnv, hv]
      rw [if_pos (utf8ByteSize_pos_of_ne_empty v hne)]
    refine ⟨hi, ?_⟩
    rintro ⟨seg, hseg, hbad⟩
    have hunk : seg ∉ knownNames := by
      intro hk
      have hall : ∀ n ∈ knownNames, n ≠ "" ∧ hasSurroundingSpace n = false := by decide
      obtain ⟨h1, h2⟩ := hall seg hk
      rcases hbad with h | h
      · exact h1 h
      · rw [h2] at h
        cases h
    obtain ⟨bad, hmem, hb, hE⟩ := Build_unknown lib env (Split v ',') ⟨seg, hseg, hunk⟩
    refine ⟨⟨bad, hmem, hb, by rw [hi, hE]⟩, ?_⟩
    intro r hr
    rw [hi, hE] at hr
    cases hr

/-- C10 at concrete inputs: the values `google, github` and `google,`. -/
theorem init_matches_segments_exactly_witness :
    (∃ seg ∈ Split "google, github" ',', seg = "" ∨ hasSurroundingSpace seg = true) ∧
    (∃ bad ∈ Split "google, github" ',', bad ∉ knownNames ∧
      init sampleEndpoints (singleEnv "oauth2.endpoint-names" "google, github")
        = Except.error ("Init unknown OAuth2.0 Endpoint : " ++ bad)) ∧
    init sampleEndpoints (singleEnv "oauth2.endpoint-names" "google, github")
      = Except.error "Init unknown OAuth2.0 Endpoint :  github" ∧
    init sampleEndpoints (singleEnv "oauth2.endpoint-names" "google,")
      = Except.error "Init unknown OAuth2.0 Endpoint : " ∧
    init sampleEndpoints emptyEnv = Except.ok [] :=
  have h : ∃ seg ∈ Split "google, github" ',', seg = "" ∨ hasSurroundingSpace seg = true :=
    ⟨" github", by decide, Or.inr (by decide)⟩
  ⟨h,
    (((init_matches_segments_exactly sampleEndpoints
      (singleEnv "oauth2.endpoint-names" "google, github")).2
        "google, github" rfl (by decide)).2 h).1,
    rfl, rfl,
    (init_matches_segments_exactly sampleEndpoints emptyEnv).1 (Or.inl rfl)⟩

/-! ## Lemmas on the resolver -/

theorem GetUser_of_success (w : World) (cfg : Config) (endpointName code : String)
    (tok : Token) (body : String) (data : JObj)
    (hx : w.Exchange cfg.toOAuthConfig code = Except.ok tok)
    (hg : w.Get cfg.toOAuthConfig tok (cfg.DataURL ++ tok.AccessToken) = Except.ok body)
    (hd : w.Decode body = Except.ok data) :
    GetUser w cfg endpointName code
      = (normalize endpointName data,
          [Call.exchange code, Call.get (cfg.DataURL ++ tok.AccessToken)]) := by
  simp [GetUser, hx, hg, hd]

theorem newGoogleUser_of_fields (data : JObj) (n e p : String)
    (hn : data.index "name" = JVal.str n) (he : data.index "email" = JVal.str e)
    (hp : data.index "picture" = JVal.str p) :
    newGoogleUser data = some { Name := n, Email := e, Picture := p } := by
  simp [newGoogleUser, hn, he, hp, assertString]

theorem newFacebookUser_of_fields (data picture inner : JObj) (n e u : String)
    (hn : data.index "name" = JVal.str n) (he : data.index "email" = JVal.str e)
    (hp : data.index "picture" = JVal.obj picture)
    (hd : picture.index "data" = JVal.obj inner) (hu : inner.index "url" = JVal.str u) :
    newFacebookUser data = some { Name := n, Email := e, Picture := u } := by
  simp [newFacebookUser, hn, he, hp, hd, hu, assertString, assertMap]

theorem newGithubUser_of_fields (data : JObj) (l a : String)
    (hl : data.index "login" = JVal.str l) (ha : data.index "avatar_url" = JVal.str a) :
    newGithubUser data = some { Name := l, Email := "", Picture := a } := by
  simp [newGithubUser, hl, ha, assertString]

/-! ## The claims on the extractors and the resolver -/

/-- C2 (defect in the code). The extractors are not total: on a JSON object
that lacks a field the extractor reads, the unchecked type assertion on the
absent value panics, so no `User` is returned. Shown for a Google profile
without `picture`, a Facebook profile without `picture`, a GitHub profile
without `avatar_url`, and the empty object for each extractor. -/
theorem extractors_panic_on_absent_field :
    newGoogleUser [("name", JVal.str "Ann"), ("email", JVal.str "ann@x.com")] = none ∧
    newFacebookUser [("name", JVal.str "Bo"), ("email", JVal.str "bo@x.com")] = none ∧
    newGithubUser [("login", JVal.str "carl")] = none ∧
    newGoogleUser [] = none ∧ newFacebookUser [] = none ∧ newGithubUser [] = none ∧
    (GetUser (stubWorld [("login", JVal.str "carl")]) stubConfig "github" "code1").1
      = Outcome.panic :=
  ⟨rfl, rfl, rfl, rfl, rfl, rfl, rfl⟩

/-- C5. When the token exchange succeeds with a token whose access token is
`T`, the profile endpoint at `DataURL ++ T` returns a body, and the body
decodes to a JSON object with string fields `name`, `email` and `picture`
holding `n`, `e` and `p`, then `GetUser("google", code)` returns
`User{Name: n, Email: e, Picture: p}`, after exactly the exchange and one
profile request at that URL. -/
theorem GetUser_google_user (w : World) (cfg : Config) (code : String) (tok : Token)
    (body : String) (data : JObj) (n e p : String)
    (hx : w.Exchange cfg.toOAuthConfig code = Except.ok tok)
    (hg : w.Get cfg.toOAuthConfig tok (cfg.DataURL ++ tok.AccessToken) = Except.ok body)
    (hd : w.Decode body = Except.ok data)
    (hn : data.index "name" = JVal.str n) (he : data.index "email" = JVal.str e)
    (hp : data.index "picture" = JVal.str p) :
    GetUser w cfg "google" code
      = (Outcome.user { Name := n, Email := e, Picture := p },
          [Call.exchange code, Call.get (cfg.DataURL ++ tok.AccessToken)]) := by
  rw [GetUser_of_success w cfg "google" code tok body data hx hg hd]
  simp [normalize, newGoogleUser_of_fields data n e p hn he hp, Outcome.ofExtractor]

/-- C5 at the stub of the spec: token `T`, profile of Ann. -/
theorem GetUser_google_user_witness :
    GetUser (stubWorld googleProfile) stubConfig "google" "code1"
      = (Outcome.user { Name := "Ann", Email := "ann@x.com", Picture := "http://p/a.png" },
          [Call.exchange "code1", Call.get "https://d/me?access_token=T"]) :=
  GetUser_google_user (stubWorld googleProfile) stubConfig "code1" { AccessToken := "T" }
    "body" googleProfile "Ann" "ann@x.com" "http://p/a.png" rfl rfl rfl rfl rfl rfl

/-- C6. For a JSON object whose `name` and `email` are strings `n` and `e`
and whose `picture` is an object holding an object `data` holding a string
`url` equal to `u`, the Facebook extractor returns
`User{Name: n, Email: e, Picture: u}`, and so does `GetUser("facebook", ...)`
after a successful token exchange and profile fetch of a body decoding to
that object. -/
theorem newFacebookUser_nested_picture (data picture inner : JObj) (n e u : String)
    (hn : data.index "name" = JVal.str n) (he : data.index "email" = JVal.str e)
    (hp : data.index "picture" = JVal.obj picture)
    (hi : picture.index "data" = JVal.obj inner) (hu : inner.index "url" = JVal.str u) :
    newFacebookUser data = some { Name := n, Email := e, Picture := u } ∧
    ∀ (w : World) (cfg : Config) (code : String) (tok : Token) (body : String),
      w.Exchange cfg.toOAuthConfig code = Except.ok tok →
      w.Get cfg.toOAuthConfig tok (cfg.DataURL ++ tok.AccessToken) = Except.ok body →
      w.Decode body = Except.ok data →
      (GetUser w cfg "facebook" code).1
        = Outcome.user { Name := n, Email := e, Picture := u } := by
  have hf := newFacebookUser_of_fields data picture inner n e u hn he hp hi hu
  refine ⟨hf, ?_⟩
  intro w cfg code tok body hx hg hd
  rw [GetUser_of_success w cfg "facebook" code tok body data hx hg hd]
  simp [normalize, hf, Outcome.ofExtractor]

/-- C6 at the Facebook-shaped profile of the spec. -/
theorem newFacebookUser_nested_picture_witness :
    newFacebookUser facebookProfile
      = some { Name := "Bo", Email := "bo@x.com", Picture := "http://p/b.png" } ∧
    (GetUser (stubWorld facebookProfile) stubConfig "facebook" "code1").1
      = Outcome.user { Name := "Bo", Email := "bo@x.com", Picture := "http://p/b.png" } :=
  have h := newFacebookUser_nested_picture facebookProfile
    [("data", JVal.obj [("url", JVal.str "http://p/b.png")])]
    [("url", JVal.str "http://p/b.png")] "Bo" "bo@x.com" "http://p/b.png" rfl rfl rfl rfl rfl
  ⟨h.1, h.2 (stubWorld facebookProfile) stubConfig "code1" { AccessToken := "T" } "body"
    rfl rfl rfl⟩

/-- C7. For a JSON object whose `login` and `avatar_url` are strings `l` and
`a`, the GitHub extractor returns `User{Name: l, Email: "", Picture: a}`,
whatever else the object holds (an `email` field included), and so does
`GetUser("github", ...)` after a successful token exchange and profile fetch
of a body decoding to that object. -/
theorem newGithubUser_email_empty (data : JObj) (l a : String)
    (hl : data.index "login" = JVal.str l) (ha : data.index "avatar_url" = JVal.str a) :
    newGithubUser data = some { Name := l, Email := "", Picture := a } ∧
    ∀ (w : World) (cfg : Config) (code : String) (tok : Token) (body : String),
      w.Exchange cfg.toOAuthConfig code = Except.ok tok →
      w.Get cfg.toOAuthConfig tok (cfg.DataURL ++ tok.AccessToken) = Except.ok body →
      w.Decode body = Except.ok data →
      (GetUser w cfg "github" code).1
        = Outcome.user { Name := l, Email := "", Picture := a } := by
  have hf := newGithubUser_of_fields data l a hl ha
  refine ⟨hf, ?_⟩
  intro w cfg code tok body hx hg hd
  rw [GetUser_of_success w cfg "github" code tok body data hx hg hd]
  simp [normalize, hf, Outcome.ofExtractor]

/-- C7 at the GitHub-shaped profile of the spec, extended with an `email`
field that the extractor leaves unread. -/
theorem newGithubUser_email_empty_witness :
    githubProfile.index "email" = JVal.str "carl@x.com" ∧
    newGithubUser githubProfile
      = some { Name := "carl", Email := "", Picture := "http://p/c.png" } ∧
    (GetUser (stubWorld githubProfile) stubConfig "github" "code1").1
      = Outcome.user { Name := "carl", Email := "", Picture := "http://p/c.png" } :=
  have h := newGithubUser_email_empty githubProfile "carl" "http://p/c.png" rfl rfl
  ⟨rfl, h.1, h.2 (stubWorld githubProfile) stubConfig "code1" { AccessToken := "T" } "body"
    rfl rfl rfl⟩

/-- C8. For an endpoint name other than `google`, `facebook` and `github`,
after a successful token exchange, a successful profile fetch and a body that
decodes to a JSON object, `GetUser` returns the error
`UserInfo unknown OAuth2.0 Endpoint : <name>` and no `User`; `vk` and
`odnoklassniki`, which `NewConfig` accepts, are such names. -/
theorem GetUser_unknown_endpoint (w : World) (cfg : Config) (endpointName code : String)
    (tok : Token) (body : String) (data : JObj)
    (hname : endpointName ∉ ["google", "facebook", "github"])
    (hx : w.Exchange cfg.toOAuthConfig code = Except.ok tok)
    (hg : w.Get cfg.toOAuthConfig tok (cfg.DataURL ++ tok.AccessToken) = Except.ok body)
    (hd : w.Decode body = Except.ok data) :
    (GetUser w cfg endpointName code).1
        = Outcome.error ("UserInfo unknown OAuth2.0 Endpoint : " ++ endpointName) ∧
    (∀ u, (GetUser w cfg endpointName code).1 ≠ Outcome.user u) ∧
    "vk" ∉ ["google", "facebook", "github"] ∧
    "odnoklassniki" ∉ ["google", "facebook", "github"] ∧
    (∀ (lib : Endpoints) (env : Env), ∃ c1 c2,
      NewConfig lib env "vk" = Except.ok c1 ∧
      NewConfig lib env "odnoklassniki" = Except.ok c2) := by
  have hr : (GetUser w cfg endpointName code).1
      = Outcome.error ("UserInfo unknown OAuth2.0 Endpoint : " ++ endpointName) := by
    rw [GetUser_of_success w cfg endpointName code tok body data hx hg hd]
    simp only [List.mem_cons, List.mem_singleton, List.not_mem_nil, or_false, not_or] at hname
    simp [normalize, hname.1, hname.2.1, hname.2.2]
  refine ⟨hr, ?_, by decide, by decide, ?_⟩
  · intro u hu
    rw [hr] at hu
    cases hu
  · intro lib env
    obtain ⟨_, _, h1⟩ := NewConfig_known lib env "vk" (by decide)
    obtain ⟨_, _, h2⟩ := NewConfig_known lib env "odnoklassniki" (by decide)
    exact ⟨_, _, h1, h2⟩

/-- C8 at `vk`, with a valid token and the Google-shaped profile. -/
theorem GetUser_unknown_endpoint_witness :
    "vk" ∉ ["google", "facebook", "github"] ∧
    (GetUser (stubWorld googleProfile) stubConfig "vk" "code1").1
      = Outcome.error "UserInfo unknown OAuth2.0 Endpoint : vk" :=
  have h : "vk" ∉ ["google", "facebook", "github"] := by decide
  ⟨h, (GetUser_unknown_endpoint (stubWorld googleProfile) stubConfig "vk" "code1"
    { AccessToken := "T" } "body" googleProfile h rfl rfl rfl).1⟩

/-- C9. When the token exchange fails, `GetUser` returns that error, no
`User`, and its only call is the exchange: no profile request is made. More
generally every profile request of a run follows a successful exchange and
goes to `DataURL ++ AccessToken`, and an outcome produced by an extractor (a
`User` or a panic) follows a successful exchange, fetch and JSON decode. -/
theorem GetUser_sequential (w : World) (cfg : Config) (endpointName code : String) :
    (∀ err, w.Exchange cfg.toOAuthConfig code = Except.error err →
      GetUser w cfg endpointName code = (Outcome.error err, [Call.exchange code]) ∧
      profileRequests (GetUser w cfg endpointName code).2 = [] ∧
      ∀ u, (GetUser w cfg endpointName code).1 ≠ Outcome.user u) ∧
    (∀ url ∈ profileRequests (GetUser w cfg endpointName code).2,
      ∃ tok, w.Exchange cfg.toOAuthConfig code = Except.ok tok ∧
        url = cfg.DataURL ++ tok.AccessToken) ∧
    (((∃ u, (GetUser w cfg endpointName code).1 = Outcome.user u) ∨
        (GetUser w cfg endpointName code).1 = Outcome.panic) →
      ∃ tok body data, w.Exchange cfg.toOAuthConfig code = Except.ok tok ∧
        w.Get cfg.toOAuthConfig tok (cfg.DataURL ++ tok.AccessToken) = Except.ok body ∧
        w.Decode body = Except.ok data ∧
        (GetUser w cfg endpointName code).1 = normalize endpointName data) := by
  refine ⟨?_, ?_, ?_⟩
  · intro err hx
    have hr : GetUser w cfg endpointName code = (Outcome.error err, [Call.exchange code]) := by
      simp [GetUser, hx]
    refine ⟨hr, by rw [hr]; rfl, ?_⟩
    intro u hu
    rw [hr] at hu
    cases hu
  · intro url hurl
    cases hx : w.Exchange cfg.toOAuthConfig code with
    | error err =>
      have hr : GetUser w cfg endpointName code = (Outcome.error err, [Call.exchange code]) := by
        simp [GetUser, hx]
      rw [hr] at hurl
      simp [profileRequests] at hurl
    | ok tok =>
      refine ⟨tok, rfl, ?_⟩
      have hc : (GetUser w cfg endpointName code).2
          = [Call.exchange code, Call.get (cfg.DataURL ++ tok.AccessToken)] := by
        simp only [GetUser, hx]
        cases w.Get cfg.toOAuthConfig tok (cfg.DataURL ++ tok.AccessToken) with
        | error e => rfl
        | ok body =>
          dsimp only
          cases w.Decode body <;> rfl
      rw [hc] at hurl
      simpa [profileRequests] using hurl
  · intro hout
    cases hx : w.Exchange cfg.toOAuthConfig code with
    | error err =>
      have hr : GetUser w cfg endpointName code = (Outcome.error err, [Call.exchange code]) := by
        simp [GetUser, hx]
      rw [hr] at hout
      rcases hout with ⟨u, hu⟩ | hp
      · cases hu
      · cases hp
    | ok tok =>
      cases hg : w.Get cfg.toOAuthConfig tok (cfg.DataURL ++ tok.AccessToken) with
      | error err =>
        have hr : (GetUser w cfg endpointName code).1 = Outcome.error err := by
          simp [GetUser, hx, hg]
        rw [hr] at hout
        rcases hout with ⟨u, hu⟩ | hp
        · cases hu
        · cases hp
      | ok body =>
        cases hd : w.Decode body with
        | error err =>
          have hr : (GetUser w cfg endpointName code).1 = Outcome.error err := by
            simp [GetUser, hx, hg, hd]
          rw [hr] at hout
          rcases hout with ⟨u, hu⟩ | hp
          · cases hu
          · cases hp
        | ok data =>
          refine ⟨tok, body, data, rfl, hg, hd, ?_⟩
          rw [GetUser_of_success w cfg endpointName code tok body data hx hg hd]

/-- C9 at a stub world whose token endpoint refuses the code while its
profile endpoint would answer: the error comes back and no profile request
is made. -/
theorem GetUser_sequential_witness :
    refusingWorld.Exchange stubConfig.toOAuthConfig "code1"
      = Except.error "oauth2: cannot fetch token: 400 Bad Request" ∧
    GetUser refusingWorld stubConfig "google" "code1"
      = (Outcome.error "oauth2: cannot fetch token: 400 Bad Request",
          [Call.exchange "code1"]) ∧
    profileRequests (GetUser refusingWorld stubConfig "google" "code1").2 = [] :=
  have h := (GetUser_sequential refusingWorld stubConfig "google" "code1").1
    "oauth2: cannot fetch token: 400 Bad Request" rfl
  ⟨rfl, h.1, h.2.1⟩

end OAuth2
